import Mathlib

/-!
Shallow embedding of the LeaveFlow leave-management core
(`backend/app/services/validator.py`, `backend/app/services/leave.py`,
`backend/app/routes/leave.py` carry-forward, `backend/app/models.py`).

Modelling conventions:
* Python `date` values are modelled as proleptic-Gregorian ordinals (`Nat`),
  matching `date.toordinal`; ordinal 1 is a Monday, so
  `weekday o = (o + 6) % 7` agrees with Python `date.weekday` (Mon = 0).
* Float day counters (`LeaveBalance.casual` etc., `LeaveRequest.days`) are
  modelled as `ℚ`: every value the program ever stores is a multiple of 0.5
  and far below the range where binary floats would round, so addition and
  subtraction are exact and `ℚ` is a faithful model.
* The database session is a `DB` record of lists; `scalar_one_or_none`
  lookups become `List.find?` (the relevant columns carry unique
  constraints).  ORM mutation of a fetched row becomes replacement of the
  first matching row.  `commit` is implicit: functions return the new `DB`.
* Timestamp columns (`approved_at`, `created_at`) and notification /
  WhatsApp side effects carry no information any claim depends on and are
  omitted; audit-log rows and balance-history rows are kept.
-/

namespace LeaveFlow

/-- Leave categories, `models.LeaveType`. -/
inductive LeaveType where
  | casual
  | sick
  | special
deriving DecidableEq, Repr

/-- `LeaveType.value` in Python (the enum value string). -/
def LeaveType.val : LeaveType → String
  | .casual => "casual"
  | .sick => "sick"
  | .special => "special"

/-- Request lifecycle states, `models.LeaveStatus`. -/
inductive LeaveStatus where
  | pending
  | approved
  | rejected
  | cancelled
deriving DecidableEq, Repr

/-- `LeaveStatus.value` in Python. -/
def LeaveStatus.val : LeaveStatus → String
  | .pending => "pending"
  | .approved => "approved"
  | .rejected => "rejected"
  | .cancelled => "cancelled"

/-- `models.LeaveBalance`: one row per user (`user_id` is UNIQUE), three
float counters and a year column. -/
structure LeaveBalance where
  user_id : Nat
  year : Nat
  casual : ℚ
  sick : ℚ
  special : ℚ
deriving DecidableEq, Repr

/-- `getattr(balance, leave_type.value)`. -/
def getBal (b : LeaveBalance) : LeaveType → ℚ
  | .casual => b.casual
  | .sick => b.sick
  | .special => b.special

/-- `setattr(balance, leave_type.value, v)`. -/
def setBal (b : LeaveBalance) (lt : LeaveType) (v : ℚ) : LeaveBalance :=
  match lt with
  | .casual => { b with casual := v }
  | .sick => { b with sick := v }
  | .special => { b with special := v }

/-- `models.LeaveRequest` (columns a claim depends on). -/
structure LeaveRequest where
  id : Nat
  user_id : Nat
  start_date : Nat
  end_date : Nat
  days : ℚ
  leave_type : LeaveType
  status : LeaveStatus
  approved_by : Option Nat
  rejection_reason : Option String
deriving DecidableEq, Repr

/-- `models.Holiday`: a named calendar date. -/
structure Holiday where
  date : Nat
  name : String
deriving DecidableEq, Repr

/-- `models.AuditLog` (columns a claim depends on). -/
structure AuditEntry where
  leave_request_id : Nat
  action : String
  actor_id : Nat
  details : Option String
deriving DecidableEq, Repr

/-- `models.LeaveBalanceHistory`: append-only balance ledger rows. -/
structure HistoryEntry where
  user_id : Nat
  leave_type : LeaveType
  days_changed : ℚ
  balance_after : ℚ
  reason : String
deriving DecidableEq, Repr

/-- The persistent state the embedded operations read and write. -/
structure DB where
  requests : List LeaveRequest
  balances : List LeaveBalance
  holidays : List Holiday
  audit : List AuditEntry
  history : List HistoryEntry
deriving DecidableEq, Repr

/-- `select(LeaveBalance).where(LeaveBalance.user_id == user_id)` +
`scalar_one_or_none` (sound because `user_id` is UNIQUE). -/
def findBal (db : DB) (user_id : Nat) : Option LeaveBalance :=
  db.balances.find? (fun b => b.user_id == user_id)

/-- Replace the first balance row of the given user (ORM mutation of the
fetched row). -/
def updateBalList (l : List LeaveBalance) (user_id : Nat) (f : LeaveBalance → LeaveBalance) :
    List LeaveBalance :=
  match l with
  | [] => []
  | b :: rest =>
      if b.user_id == user_id then f b :: rest else b :: updateBalList rest user_id f

/-- Convenience projection: the stored counter of one user and category. -/
def balOf (db : DB) (user_id : Nat) (lt : LeaveType) : Option ℚ :=
  (findBal db user_id).map (fun b => getBal b lt)

/-- `validator.deduct_balance`: fails (no state change) when no balance row
exists or the counter is below the requested days; otherwise decrements. -/
def deduct_balance (db : DB) (user_id : Nat) (lt : LeaveType) (days : ℚ) : DB × Bool :=
  match findBal db user_id with
  | none => (db, false)
  | some balance =>
      let current := getBal balance lt
      if current < days then (db, false)
      else
        let newBalances :=
          updateBalList db.balances user_id (fun b => setBal b lt (getBal b lt - days))
        ({ db with balances := newBalances }, true)

/-- `validator.refund_balance`: unconditionally increments when a balance
row exists; fails only when none does. -/
def refund_balance (db : DB) (user_id : Nat) (lt : LeaveType) (days : ℚ) : DB × Bool :=
  match findBal db user_id with
  | none => (db, false)
  | some _ =>
      let newBalances :=
        updateBalList db.balances user_id (fun b => setBal b lt (getBal b lt + days))
      ({ db with balances := newBalances }, true)

/-- `LeaveService.get_balance`: looks the row up BY USER ONLY, lazily
creates a default row (for the current calendar year) when the user has no
row at all, and returns the three counters. -/
def get_balance (db : DB) (user_id : Nat) (todayYear : Nat) : DB × (ℚ × ℚ × ℚ) :=
  match findBal db user_id with
  | some balance => (db, (balance.casual, balance.sick, balance.special))
  | none =>
      let balance : LeaveBalance :=
        { user_id := user_id, year := todayYear, casual := 12, sick := 12, special := 5 }
      ({ db with balances := db.balances ++ [balance] },
       (balance.casual, balance.sick, balance.special))

theorem find?_updateBalList (l : List LeaveBalance) (uid : Nat) (f : LeaveBalance → LeaveBalance)
    (hf : ∀ b, (f b).user_id = b.user_id) :
    (updateBalList l uid f).find? (fun b => b.user_id == uid) =
      (l.find? (fun b => b.user_id == uid)).map f := by
  induction l with
  | nil => simp [updateBalList]
  | cons b rest ih =>
      by_cases h : b.user_id = uid
      · simp [updateBalList, List.find?, h, hf]
      · have hb : (b.user_id == uid) = false := by simp [h]
        simp [updateBalList, List.find?, hb, ih]

theorem getBal_setBal_same (b : LeaveBalance) (lt : LeaveType) (v : ℚ) :
    getBal (setBal b lt v) lt = v := by
  cases lt <;> rfl

theorem getBal_setBal_other (b : LeaveBalance) (lt lt' : LeaveType) (v : ℚ)
    (h : lt' ≠ lt) : getBal (setBal b lt v) lt' = getBal b lt' := by
  cases lt <;> cases lt' <;> first | rfl | exact absurd rfl h

theorem setBal_user_id (b : LeaveBalance) (lt : LeaveType) (v : ℚ) :
    (setBal b lt v).user_id = b.user_id := by
  cases lt <;> rfl

/-- Python `date.weekday` on the ordinal encoding (Monday = 0, Sunday = 6):
ordinal 1 is 0001-01-01, a Monday in the proleptic Gregorian calendar. -/
def weekday (o : Nat) : Nat := (o + 6) % 7

/-- The while loop of `LeaveValidator._calculate_working_days`: starting
at `current`, make one iteration per calendar day of the inclusive range
(the fuel argument is the number of days left to visit), counting days
that are neither weekend (`weekday < 5`) nor in the holiday set. -/
def wdLoop (holiday_dates : List Nat) : Nat → Nat → Nat
  | 0, _ => 0
  | fuel + 1, current =>
      (if weekday current < 5 ∧ current ∉ holiday_dates then 1 else 0) +
        wdLoop holiday_dates fuel (current + 1)

/-- `LeaveValidator._calculate_working_days`: the loop count over the
`end_date + 1 - start_date` days of the inclusive range, returned as a
float. -/
def calculate_working_days (start_date end_date : Nat) (holidays : List Holiday) : ℚ :=
  let holiday_dates := holidays.map Holiday.date
  (wdLoop holiday_dates (end_date + 1 - start_date) start_date : ℚ)

/-- The per-row disjunction in the `_check_overlap` SQL filter. -/
def overlapsSQL (start_date end_date : Nat) (r : LeaveRequest) : Prop :=
  (r.start_date ≤ start_date ∧ r.end_date ≥ start_date) ∨
  (r.start_date ≤ end_date ∧ r.end_date ≥ end_date) ∨
  (r.start_date ≥ start_date ∧ r.end_date ≤ end_date)

instance (s e : Nat) (r : LeaveRequest) : Decidable (overlapsSQL s e r) := by
  unfold overlapsSQL
  infer_instance

/-- `LeaveValidator._check_overlap`: does the user have a pending or
approved request matching the three-way range filter? -/
def check_overlap (db : DB) (user_id : Nat) (start_date end_date : Nat) : Bool :=
  db.requests.any (fun r =>
    decide (r.user_id = user_id ∧
      (r.status = LeaveStatus.pending ∨ r.status = LeaveStatus.approved) ∧
      overlapsSQL start_date end_date r))

/-- `LeaveValidator._check_pending_requests`. -/
def check_pending_requests (db : DB) (user_id : Nat) : Bool :=
  db.requests.any (fun r => r.user_id == user_id && r.status == LeaveStatus.pending)

/-- `LeaveValidator._get_holidays`: holidays inside the closed range. -/
def get_holidays (db : DB) (start_date end_date : Nat) : List Holiday :=
  db.holidays.filter (fun h => start_date ≤ h.date && h.date ≤ end_date)

/-- `LeaveValidator._get_balance`: same lazy creation as
`LeaveService.get_balance`, then `getattr` by category. -/
def validator_get_balance (db : DB) (user_id : Nat) (todayYear : Nat) (lt : LeaveType) :
    DB × ℚ :=
  match findBal db user_id with
  | some balance => (db, getBal balance lt)
  | none =>
      let balance : LeaveBalance :=
        { user_id := user_id, year := todayYear, casual := 12, sick := 12, special := 5 }
      ({ db with balances := db.balances ++ [balance] }, getBal balance lt)

/-- `validator.LeaveValidationError`: message plus stable machine code. -/
structure LeaveValidationError where
  message : String
  code : String
deriving DecidableEq, Repr

/-- `LeaveValidator.validate_leave_request`.  `today` and `todayYear` stand
for `date.today()` and its year.  The returned `DB` reflects that the lazy
balance creation persists even when a later check fails. -/
def validate_leave_request (db : DB) (user_id : Nat) (start_date end_date : Nat)
    (lt : LeaveType) (is_half_day : Bool) (today : Nat) (todayYear : Nat) :
    DB × Except LeaveValidationError (ℚ × Option String) :=
  if end_date < start_date then
    (db, .error ⟨"End date cannot be before start date", "INVALID_DATE_RANGE"⟩)
  else if start_date < today then
    (db, .error ⟨"Cannot apply for leave in the past", "PAST_DATE"⟩)
  else
    let holidays := get_holidays db start_date end_date
    let wdFull := calculate_working_days start_date end_date holidays
    let working_days := if is_half_day then (1 / 2 : ℚ) else wdFull
    if working_days ≤ 0 then
      (db, .error ⟨"No working days in the selected range (all weekends/holidays)",
                   "NO_WORKING_DAYS"⟩)
    else if check_overlap db user_id start_date end_date then
      (db, .error ⟨"You already have a leave request for these dates", "OVERLAPPING_LEAVE"⟩)
    else
      let warnings1 : List String :=
        if check_pending_requests db user_id then ["You have other pending leave requests"]
        else []
      let res := validator_get_balance db user_id todayYear lt
      if res.2 < working_days then
        (res.1, .error ⟨"Insufficient " ++ lt.val ++ " leave balance. Available: " ++
                        toString res.2 ++ ", Required: " ++ toString working_days,
                        "INSUFFICIENT_BALANCE"⟩)
      else
        let warnings2 : List String :=
          if holidays = [] then warnings1
          else warnings1 ++
            ["Your leave includes holidays: " ++
              String.intercalate ", " (holidays.map Holiday.name)]
        let warning_msg : Option String :=
          if warnings2 = [] then none else some (String.intercalate "; " warnings2)
        (res.1, .ok (working_days, warning_msg))

/-- `select(LeaveRequest).where(LeaveRequest.id == request_id)` +
`scalar_one_or_none` (`LeaveService._get_leave_request`). -/
def findReq (db : DB) (request_id : Nat) : Option LeaveRequest :=
  db.requests.find? (fun r => r.id == request_id)

/-- Replace the first request row with the given id (ORM mutation of the
fetched row). -/
def updateReqList (l : List LeaveRequest) (request_id : Nat) (f : LeaveRequest → LeaveRequest) :
    List LeaveRequest :=
  match l with
  | [] => []
  | r :: rest =>
      if r.id == request_id then f r :: rest else r :: updateReqList rest request_id f

/-- `LeaveService._log_action`: append an audit row. -/
def log_action (db : DB) (request_id : Nat) (action : String) (actor_id : Nat)
    (details : Option String) : DB :=
  { db with audit := db.audit ++ [⟨request_id, action, actor_id, details⟩] }

/-- `LeaveService.approve_leave`.  Note: the source IGNORES the Bool
returned by `deduct_balance` and commits the status change regardless. -/
def approve_leave (db : DB) (request_id approver_id : Nat) :
    Except LeaveValidationError (DB × LeaveRequest) :=
  match findReq db request_id with
  | none => .error ⟨"Leave request not found", "NOT_FOUND"⟩
  | some leave_request =>
      if leave_request.status ≠ LeaveStatus.pending then
        .error ⟨"Request is already " ++ leave_request.status.val, "ALREADY_PROCESSED"⟩
      else
        let updated := { leave_request with
          status := LeaveStatus.approved, approved_by := some approver_id }
        let db1 := { db with requests := updateReqList db.requests request_id (fun _ => updated) }
        let db2 :=
          (deduct_balance db1 leave_request.user_id leave_request.leave_type
            leave_request.days).1
        let db3 := log_action db2 request_id "approved" approver_id none
        .ok (db3, updated)

/-- `LeaveService.reject_leave`. -/
def reject_leave (db : DB) (request_id approver_id : Nat) (reason : Option String) :
    Except LeaveValidationError (DB × LeaveRequest) :=
  match findReq db request_id with
  | none => .error ⟨"Leave request not found", "NOT_FOUND"⟩
  | some leave_request =>
      if leave_request.status ≠ LeaveStatus.pending then
        .error ⟨"Request is already " ++ leave_request.status.val, "ALREADY_PROCESSED"⟩
      else
        let updated := { leave_request with
          status := LeaveStatus.rejected, approved_by := some approver_id,
          rejection_reason := reason }
        let db1 := { db with requests := updateReqList db.requests request_id (fun _ => updated) }
        let db2 := log_action db1 request_id "rejected" approver_id reason
        .ok (db2, updated)

/-- `LeaveService.cancel_leave` (owner-only; refunds when cancelling an
approved request). -/
def cancel_leave (db : DB) (request_id user_id : Nat) :
    Except LeaveValidationError (DB × LeaveRequest) :=
  match findReq db request_id with
  | none => .error ⟨"Leave request not found", "NOT_FOUND"⟩
  | some leave_request =>
      if leave_request.user_id ≠ user_id then
        .error ⟨"You can only cancel your own requests", "FORBIDDEN"⟩
      else if leave_request.status ≠ LeaveStatus.pending ∧
          leave_request.status ≠ LeaveStatus.approved then
        .error ⟨"Cannot cancel a " ++ leave_request.status.val ++ " request", "INVALID_STATUS"⟩
      else
        let db1 :=
          if leave_request.status = LeaveStatus.approved then
            (refund_balance db leave_request.user_id leave_request.leave_type
              leave_request.days).1
          else db
        let updated := { leave_request with status := LeaveStatus.cancelled }
        let db2 := { db1 with requests := updateReqList db1.requests request_id (fun _ => updated) }
        let db3 := log_action db2 request_id "cancelled" user_id none
        .ok (db3, updated)

/-- The per-balance-row body of `routes/leave.carry_forward_leaves`:
carried amount `min(casual, 5)` when positive, in-place reset of the row to
next-year defaults plus the carried amount, and a history row. -/
def carryOne (current_year : Nat) (b : LeaveBalance) : LeaveBalance × Option HistoryEntry :=
  let casual_carryover : ℚ := if b.casual > 0 then min b.casual 5 else 0
  if casual_carryover > 0 then
    ({ user_id := b.user_id, year := current_year, casual := 12 + casual_carryover,
       sick := 12, special := 5 },
     some { user_id := b.user_id, leave_type := LeaveType.casual,
            days_changed := casual_carryover, balance_after := 12 + casual_carryover,
            reason := "Carried forward from " ++ toString (current_year - 1) })
  else (b, none)

/-- `routes/leave.carry_forward_leaves` (HTTP and admin-auth glue
stripped): updates every balance row in place and appends the history
rows; also returns `carried_forward_count`. -/
def carry_forward_leaves (db : DB) (current_year : Nat) : DB × Nat :=
  let results := db.balances.map (carryOne current_year)
  let newHist := results.filterMap Prod.snd
  ({ db with balances := results.map Prod.fst, history := db.history ++ newHist },
   newHist.length)

instance {ε α : Type} [DecidableEq ε] [DecidableEq α] : DecidableEq (Except ε α) :=
  fun x y =>
    match x, y with
    | .error a, .error b =>
        if h : a = b then .isTrue (h ▸ rfl)
        else .isFalse (fun hc => by cases hc; exact h rfl)
    | .ok a, .ok b =>
        if h : a = b then .isTrue (h ▸ rfl)
        else .isFalse (fun hc => by cases hc; exact h rfl)
    | .error _, .ok _ => .isFalse (fun hc => by cases hc)
    | .ok _, .error _ => .isFalse (fun hc => by cases hc)

/-- Machine-readable code of a failed operation, `none` on success. -/
def errCode {α : Type} : Except LeaveValidationError α → Option String
  | .error e => some e.code
  | .ok _ => none

/-- Status of the stored request with the given id. -/
def statusOf (db : DB) (request_id : Nat) : Option LeaveStatus :=
  (findReq db request_id).map LeaveRequest.status

/-- Approve a request and then cancel it, returning the final state when
both operations succeed. -/
def roundTrip (db : DB) (request_id approver_id owner_id : Nat) : Option DB :=
  match approve_leave db request_id approver_id with
  | .ok (db1, _) =>
      match cancel_leave db1 request_id owner_id with
      | .ok (db2, _) => some db2
      | .error _ => none
  | .error _ => none

/-! ### Concrete fixtures (729 is a Monday in the ordinal encoding) -/

/-- A pending 3-day casual request, Monday 729 to Wednesday 731. -/
def reqPending : LeaveRequest :=
  { id := 1, user_id := 1, start_date := 729, end_date := 731, days := 3,
    leave_type := LeaveType.casual, status := LeaveStatus.pending,
    approved_by := none, rejection_reason := none }

/-- A full default balance row for user 1. -/
def balFull : LeaveBalance := { user_id := 1, year := 2025, casual := 12, sick := 12, special := 5 }

/-- A low balance row for user 1: only 2 casual days left. -/
def balLow : LeaveBalance := { user_id := 1, year := 2025, casual := 2, sick := 12, special := 5 }

/-- State: one pending request, full balance. -/
def dbFull : DB := { requests := [reqPending], balances := [balFull], holidays := [], audit := [], history := [] }

/-- State: one pending 3-day request but only 2 casual days of balance. -/
def dbLow : DB := { requests := [reqPending], balances := [balLow], holidays := [], audit := [], history := [] }

/-- State: a balance row for a past year (2024) and no row for 2025. -/
def dbStale : DB :=
  { requests := [], balances := [{ user_id := 1, year := 2024, casual := 7, sick := 12, special := 5 }],
    holidays := [], audit := [], history := [] }

/-- State: a single balance row with 2 unused casual days. -/
def dbCF : DB :=
  { requests := [], balances := [{ user_id := 1, year := 2024, casual := 2, sick := 3, special := 1 }],
    holidays := [], audit := [], history := [] }

/-! ### Claim theorems -/

/-- C4: for every user, category and requested amount strictly greater
than the stored counter (or when no balance row exists at all), the debit
operation returns false and the whole state, every balance counter
included, is unchanged. -/
theorem deduct_balance_failure_atomic (db : DB) (user_id : Nat) (lt : LeaveType) (days : ℚ) :
    (findBal db user_id = none → deduct_balance db user_id lt days = (db, false)) ∧
    (∀ b, findBal db user_id = some b → getBal b lt < days →
      deduct_balance db user_id lt days = (db, false)) := by
  constructor
  · intro h
    simp [deduct_balance, h]
  · intro b hb hlt
    simp [deduct_balance, hb, hlt]

/-- Witness for C4: with 2 casual days stored, a 3-day debit fails and
changes nothing; with no row at all it also fails and changes nothing. -/
theorem deduct_balance_failure_atomic_witness :
    deduct_balance dbLow 1 LeaveType.casual 3 = (dbLow, false) ∧
    deduct_balance dbStale 2 LeaveType.casual 1 = (dbStale, false) :=
  ⟨(deduct_balance_failure_atomic dbLow 1 LeaveType.casual 3).2 balLow (by decide) (by decide),
   (deduct_balance_failure_atomic dbStale 2 LeaveType.casual 1).1 (by decide)⟩

/-- C10: when a balance row exists, the refund operation unconditionally
adds exactly the given days to the selected counter and reports success —
no entitlement cap and no check that a debit ever happened; with no row it
reports failure and changes nothing. -/
theorem refund_balance_unconditional_credit (db : DB) (user_id : Nat) (lt : LeaveType) (days : ℚ) :
    (∀ b, findBal db user_id = some b →
      (refund_balance db user_id lt days).2 = true ∧
      balOf (refund_balance db user_id lt days).1 user_id lt = some (getBal b lt + days) ∧
      (∀ lt2, lt2 ≠ lt →
        balOf (refund_balance db user_id lt days).1 user_id lt2 = balOf db user_id lt2) ∧
      (refund_balance db user_id lt days).1.requests = db.requests ∧
      (refund_balance db user_id lt days).1.history = db.history) ∧
    (findBal db user_id = none → refund_balance db user_id lt days = (db, false)) := by
  constructor
  · intro b hb
    have hb2 : db.balances.find? (fun c => c.user_id == user_id) = some b := by
      simpa [findBal] using hb
    have hfind :
        (updateBalList db.balances user_id (fun c => setBal c lt (getBal c lt + days))).find?
            (fun c => c.user_id == user_id) =
          (db.balances.find? (fun c => c.user_id == user_id)).map
            (fun c => setBal c lt (getBal c lt + days)) :=
      find?_updateBalList db.balances user_id _ (fun c => setBal_user_id c lt _)
    refine ⟨?_, ?_, ?_, ?_, ?_⟩
    · simp [refund_balance, findBal, hb2]
    · simp only [refund_balance, findBal, hb2, balOf]
      rw [hfind, hb2]
      simp [getBal_setBal_same]
    · intro lt2 hlt2
      simp only [refund_balance, findBal, hb2, balOf]
      rw [hfind, hb2]
      simp [getBal_setBal_other b lt lt2 _ hlt2]
    · simp [refund_balance, findBal, hb2]
    · simp [refund_balance, findBal, hb2]
  · intro h
    simp [refund_balance, findBal, show db.balances.find? (fun c => c.user_id == user_id) = none by simpa [findBal] using h]

/-- Witness for C10: refunding 3 casual days onto a stored counter of 2
succeeds and yields 5; refunding a user with no row fails. -/
theorem refund_balance_unconditional_credit_witness :
    (refund_balance dbLow 1 LeaveType.casual 3).2 = true ∧
    balOf (refund_balance dbLow 1 LeaveType.casual 3).1 1 LeaveType.casual = some 5 ∧
    refund_balance dbLow 2 LeaveType.casual 3 = (dbLow, false) := by
  have h := (refund_balance_unconditional_credit dbLow 1 LeaveType.casual 3).1 balLow (by decide)
  have h2 := (refund_balance_unconditional_credit dbLow 2 LeaveType.casual 3).2 (by decide)
  refine ⟨h.1, ?_, h2⟩
  rw [h.2.1]
  norm_num [getBal, balLow]

/-- C9 counterexample: user 1 owns a balance row for year 2024 only, the
current year is 2025.  `get_balance` neither creates a row for 2025 nor
returns the defaults — it returns the 2024 counters and leaves the state
untouched, so the claim as stated (lazy creation whenever no row for the
CURRENT accounting year exists) is false. -/
theorem get_balance_stale_year_counterexample :
    get_balance dbStale 1 2025 = (dbStale, (7, 12, 5)) ∧
    dbStale.balances.all (fun b => b.year != 2025) = true ∧
    ((get_balance dbStale 1 2025).1.balances.all (fun b => b.year != 2025)) = true := by
  decide

/-- C9 amended: `get_balance` keys the lookup on the user alone.  When the
user has NO balance row at all it lazily creates one with the defaults
12.0 / 12.0 / 5.0 (stamped with the current year) and returns them; when
the user has a row — whatever its year — it returns that row unchanged. -/
theorem get_balance_lazy_create_amended (db : DB) (user_id todayYear : Nat) :
    (findBal db user_id = none →
      get_balance db user_id todayYear =
        ({ db with balances := db.balances ++
            [{ user_id := user_id, year := todayYear, casual := 12, sick := 12, special := 5 }] },
         (12, 12, 5))) ∧
    (∀ b, findBal db user_id = some b →
      get_balance db user_id todayYear = (db, (b.casual, b.sick, b.special))) := by
  constructor
  · intro h
    simp [get_balance, h]
  · intro b hb
    simp [get_balance, hb]

/-- Witness for amended C9: a fresh user gets the default row appended; a
user with a stale-year row gets that row back with no state change. -/
theorem get_balance_lazy_create_amended_witness :
    get_balance dbStale 2 2025 =
      ({ dbStale with balances := dbStale.balances ++
          [{ user_id := 2, year := 2025, casual := 12, sick := 12, special := 5 }] },
       (12, 12, 5)) ∧
    get_balance dbStale 1 2025 = (dbStale, (7, 12, 5)) :=
  ⟨(get_balance_lazy_create_amended dbStale 2 2025).1 (by decide),
   (get_balance_lazy_create_amended dbStale 1 2025).2
     { user_id := 1, year := 2024, casual := 7, sick := 12, special := 5 } (by decide)⟩

/-- C1 failing input: a pending 3-day casual request while only 2 casual
days remain.  `approve_leave` succeeds anyway — no error is surfaced, the
request ends up approved, and the balance row is left undebited at 2 —
because the source discards the Bool returned by `deduct_balance`. -/
theorem approve_ignores_debit_failure :
    errCode (approve_leave dbLow 1 2) = none ∧
    (approve_leave dbLow 1 2).toOption.map (fun p => (p.2.status, p.1.balances)) =
      some (LeaveStatus.approved, [balLow]) := by
  decide

/-- C3 failing input: the round-trip scenario itself (balance 12, 3-day
request).  Approve then cancel does restore the casual counter to 12, but
the balance-history ledger is EMPTY afterwards: neither the debit nor the
refund ever appends a `LeaveBalanceHistory` row, so the history half of
the claim is false on every input.  Moreover with balance 2 the approve
debit silently fails (C1) yet cancel still refunds, so the round trip
INFLATES the balance to 5 instead of restoring it to 2. -/
theorem round_trip_writes_no_history :
    balOf dbFull 1 LeaveType.casual = some 12 ∧
    (roundTrip dbFull 1 2 1).map (fun db => (balOf db 1 LeaveType.casual, db.history)) =
      some (some 12, []) ∧
    balOf dbLow 1 LeaveType.casual = some 2 ∧
    (roundTrip dbLow 1 2 1).map (fun db => (balOf db 1 LeaveType.casual, db.history)) =
      some (some 5, []) := by
  norm_num [roundTrip, approve_leave, cancel_leave, dbFull, dbLow, reqPending, balFull,
    balLow, findReq, findBal, updateReqList, updateBalList, deduct_balance, refund_balance,
    log_action, balOf, getBal, setBal, List.find?]

/-- C5 failing input: a single balance row with 2 unused casual days.  One
carry-forward run yields 12 + 2 = 14; running it again for the same year
re-applies the capped carry-over and yields 12 + 5 = 17 ≠ 14, so the
operation is not idempotent. -/
theorem carry_forward_not_idempotent :
    balOf (carry_forward_leaves dbCF 2025).1 1 LeaveType.casual = some 14 ∧
    balOf (carry_forward_leaves (carry_forward_leaves dbCF 2025).1 2025).1 1
        LeaveType.casual = some 17 := by
  norm_num [carry_forward_leaves, carryOne, dbCF, balOf, findBal, getBal, List.find?]

theorem wdLoop_eq_card (hd : List Nat) :
    ∀ n c, wdLoop hd n c =
      ((Finset.Ico c (c + n)).filter (fun d => weekday d < 5 ∧ d ∉ hd)).card := by
  intro n
  induction n with
  | zero =>
      intro c
      simp [wdLoop]
  | succ n ih =>
      intro c
      rw [wdLoop, ih (c + 1)]
      have hIco : Finset.Ico c (c + (n + 1)) = insert c (Finset.Ico (c + 1) (c + 1 + n)) := by
        rw [Nat.Ico_succ_left, show c + (n + 1) = c + 1 + n from by omega]
        exact (Finset.Ioo_insert_left (by omega)).symm
      rw [hIco, Finset.filter_insert]
      by_cases hp : weekday c < 5 ∧ c ∉ hd
      · rw [if_pos hp, if_pos hp, Finset.card_insert_of_not_mem (by simp)]
        omega
      · rw [if_neg hp, if_neg hp]
        omega

theorem calculate_working_days_eq_card (s e : Nat) (hol : List Holiday) :
    calculate_working_days s e hol =
      (((Finset.Icc s e).filter
          (fun d => weekday d < 5 ∧ d ∉ hol.map Holiday.date)).card : ℚ) := by
  show ((wdLoop (hol.map Holiday.date) (e + 1 - s) s : Nat) : ℚ) = _
  rw [wdLoop_eq_card (hol.map Holiday.date) (e + 1 - s) s]
  by_cases h : s ≤ e
  · rw [show s + (e + 1 - s) = e + 1 from by omega, Nat.Ico_succ_right]
  · rw [show e + 1 - s = 0 from by omega, Finset.Icc_eq_empty h]
    simp

/-- C6: `workingDays` returns, as a float, the number of calendar days in
the inclusive range whose weekday is neither Saturday nor Sunday and that
are not holidays; in particular 5 consecutive weekdays with no holidays
yield 5.0 and a pure weekend yields 0 (729 is a Monday, 734 a Saturday). -/
theorem working_days_counts_working_days :
    (∀ start_date end_date (holidays : List Holiday),
      calculate_working_days start_date end_date holidays =
        (((Finset.Icc start_date end_date).filter
            (fun d => weekday d < 5 ∧ d ∉ holidays.map Holiday.date)).card : ℚ)) ∧
    calculate_working_days 729 733 [] = 5 ∧
    calculate_working_days 734 735 [] = 0 := by
  refine ⟨calculate_working_days_eq_card, ?_, ?_⟩
  · rw [calculate_working_days_eq_card,
      show ((Finset.Icc 729 733).filter
          (fun d => weekday d < 5 ∧ d ∉ ([] : List Holiday).map Holiday.date)).card = 5
        from by decide]
    norm_num
  · rw [calculate_working_days_eq_card,
      show ((Finset.Icc 734 735).filter
          (fun d => weekday d < 5 ∧ d ∉ ([] : List Holiday).map Holiday.date)).card = 0
        from by decide]
    norm_num

/-- C7: `hasOverlap` is true exactly when the user has a pending or
approved request whose inclusive range shares at least one day with the
candidate range; rejected and cancelled requests never count, and
day-adjacent ranges do not conflict (there is then no shared day).  The
stored requests are assumed well-formed (`start ≤ end`, the §3 invariant
the validator enforces at creation), as is the candidate range. -/
theorem check_overlap_iff_shared_day (db : DB) (user_id : Nat) (s e : Nat)
    (hse : s ≤ e)
    (hwf : ∀ r ∈ db.requests, r.start_date ≤ r.end_date) :
    check_overlap db user_id s e = true ↔
      ∃ r ∈ db.requests, r.user_id = user_id ∧
        (r.status = LeaveStatus.pending ∨ r.status = LeaveStatus.approved) ∧
        ∃ day : Nat, r.start_date ≤ day ∧ day ≤ r.end_date ∧ s ≤ day ∧ day ≤ e := by
  unfold check_overlap
  rw [List.any_eq_true]
  constructor
  · rintro ⟨r, hr, hcond⟩
    rw [decide_eq_true_eq] at hcond
    obtain ⟨h1, h2, h3⟩ := hcond
    refine ⟨r, hr, h1, h2, ?_⟩
    have hw := hwf r hr
    unfold overlapsSQL at h3
    rcases h3 with ⟨ha, hb⟩ | ⟨ha, hb⟩ | ⟨ha, hb⟩
    · exact ⟨s, ha, hb, le_refl s, hse⟩
    · exact ⟨e, ha, hb, hse, le_refl e⟩
    · exact ⟨r.start_date, le_refl _, hw, ha, by omega⟩
  · rintro ⟨r, hr, h1, h2, day, hd1, hd2, hd3, hd4⟩
    refine ⟨r, hr, ?_⟩
    rw [decide_eq_true_eq]
    refine ⟨h1, h2, ?_⟩
    unfold overlapsSQL
    omega

/-- Witness for C7: the stored pending request for days 729–731 conflicts
with the candidate range 731–733 (they share day 731). -/
theorem check_overlap_iff_shared_day_witness :
    check_overlap dbFull 1 731 733 = true :=
  (check_overlap_iff_shared_day dbFull 1 731 733 (by decide) (by decide)).mpr
    ⟨reqPending, by decide, by decide, Or.inl (by decide),
     731, by decide, by decide, by decide, by decide⟩

set_option maxHeartbeats 1600000 in
/-- C2: `validate` performs its checks in the fixed order and fails with
exactly the first violated rule code — INVALID_DATE_RANGE, then PAST_DATE,
then NO_WORKING_DAYS on the computed day count (a fixed 0.5 for half-day
requests), then OVERLAPPING_LEAVE, then INSUFFICIENT_BALANCE against the
category balance (lazily created defaults when the user has no row); it
returns exactly one code (no aggregation) and on success the computed day
count. -/
theorem validate_first_failure (db : DB) (user_id start_date end_date : Nat)
    (lt : LeaveType) (is_half_day : Bool) (today todayYear : Nat) :
    errCode (validate_leave_request db user_id start_date end_date lt is_half_day
        today todayYear).2 =
      (if end_date < start_date then some "INVALID_DATE_RANGE"
       else if start_date < today then some "PAST_DATE"
       else if (if is_half_day then (1 / 2 : ℚ)
                else calculate_working_days start_date end_date
                  (get_holidays db start_date end_date)) ≤ 0 then
         some "NO_WORKING_DAYS"
       else if check_overlap db user_id start_date end_date then some "OVERLAPPING_LEAVE"
       else if (validator_get_balance db user_id todayYear lt).2 <
           (if is_half_day then (1 / 2 : ℚ)
            else calculate_working_days start_date end_date
              (get_holidays db start_date end_date)) then
         some "INSUFFICIENT_BALANCE"
       else none) ∧
    (∀ d w, (validate_leave_request db user_id start_date end_date lt is_half_day
        today todayYear).2 = Except.ok (d, w) →
      d = (if is_half_day then (1 / 2 : ℚ)
           else calculate_working_days start_date end_date
             (get_holidays db start_date end_date))) := by
  constructor
  · simp only [validate_leave_request]
    split_ifs <;> rfl
  · intro d w h
    simp only [validate_leave_request] at h
    split_ifs at h ⊢ <;>
      first
        | exact Except.noConfusion h
        | exact congrArg Prod.fst (Except.ok.inj h)
        | exact (congrArg Prod.fst (Except.ok.inj h)).symm

/-- Witness for C2: a clean 3-weekday request by a user with no stored
row passes every check and returns 3.0 computed days. -/
theorem validate_first_failure_witness :
    (3 : ℚ) =
      (if false = true then (1 / 2 : ℚ)
       else calculate_working_days 729 731 (get_holidays dbFull 729 731)) :=
  (validate_first_failure dbFull 2 729 731 LeaveType.casual false 729 2025).2 3 none
    (by decide)

theorem find?_updateReqList_self (l : List LeaveRequest) (rid : Nat)
    (f : LeaveRequest → LeaveRequest) (hf : ∀ r, r.id = rid → (f r).id = rid) :
    (updateReqList l rid f).find? (fun r => r.id == rid) =
      (l.find? (fun r => r.id == rid)).map f := by
  induction l with
  | nil => simp [updateReqList]
  | cons r rest ih =>
      by_cases h : r.id = rid
      · simp [updateReqList, List.find?, h, hf r h]
      · have hb : (r.id == rid) = false := by simp [h]
        simp [updateReqList, List.find?, hb, ih]

theorem find?_updateReqList_other (l : List LeaveRequest) (rid : Nat)
    (f : LeaveRequest → LeaveRequest) (j : Nat) (hj : j ≠ rid)
    (hf : ∀ r, r.id = rid → (f r).id = rid) :
    (updateReqList l rid f).find? (fun r => r.id == j) =
      l.find? (fun r => r.id == j) := by
  induction l with
  | nil => simp [updateReqList]
  | cons r rest ih =>
      have hrj : (rid == j) = false := by
        rw [beq_eq_false_iff_ne]
        exact Ne.symm hj
      have hjr : (j == rid) = false := by
        rw [beq_eq_false_iff_ne]
        exact hj
      by_cases h : r.id = rid
      · have h1 : ((f r).id == j) = false := by
          rw [hf r h, beq_eq_false_iff_ne]
          exact Ne.symm hj
        have h2 : (r.id == j) = false := by
          rw [h, beq_eq_false_iff_ne]
          exact Ne.symm hj
        simp [updateReqList, h, List.find?, h1, h2, hrj]
      · have hb : (r.id == rid) = false := by simp [h]
        by_cases h2 : r.id = j
        · simp [updateReqList, hb, List.find?, h2, hjr]
        · have h2b : (r.id == j) = false := by simp [h2]
          simp [updateReqList, hb, List.find?, h2b, ih]

theorem deduct_balance_requests (db : DB) (uid : Nat) (lt : LeaveType) (d : ℚ) :
    (deduct_balance db uid lt d).1.requests = db.requests := by
  rcases h : findBal db uid with _ | b
  · simp [deduct_balance, h]
  · by_cases hc : getBal b lt < d
    · simp [deduct_balance, h, hc]
    · simp [deduct_balance, h, hc]

theorem refund_balance_requests (db : DB) (uid : Nat) (lt : LeaveType) (d : ℚ) :
    (refund_balance db uid lt d).1.requests = db.requests := by
  rcases h : findBal db uid with _ | b
  · simp [refund_balance, h]
  · simp [refund_balance, h]

theorem log_action_requests (db : DB) (a : Nat) (s : String) (b : Nat) (d : Option String) :
    (log_action db a s b d).requests = db.requests := rfl

/-- C8: the only status transitions the three operations ever perform are
pending→approved (approve), pending→rejected (reject) and
pending→cancelled or approved→cancelled (cancel, owner only); every other
stored request keeps its status.  A rejected or cancelled request is never
transitioned again: approve and reject fail ALREADY_PROCESSED when the
status is not pending, cancel fails INVALID_STATUS when it is neither
pending nor approved, and the NOT_FOUND / FORBIDDEN failures are as
specified. -/
theorem leave_status_transitions (db : DB) (request_id actor : Nat) :
    (∀ db2 r2, approve_leave db request_id actor = Except.ok (db2, r2) →
      statusOf db request_id = some LeaveStatus.pending ∧
      statusOf db2 request_id = some LeaveStatus.approved ∧
      ∀ j, j ≠ request_id → statusOf db2 j = statusOf db j) ∧
    (∀ reason db2 r2, reject_leave db request_id actor reason = Except.ok (db2, r2) →
      statusOf db request_id = some LeaveStatus.pending ∧
      statusOf db2 request_id = some LeaveStatus.rejected ∧
      ∀ j, j ≠ request_id → statusOf db2 j = statusOf db j) ∧
    (∀ db2 r2, cancel_leave db request_id actor = Except.ok (db2, r2) →
      (findReq db request_id).map LeaveRequest.user_id = some actor ∧
      (statusOf db request_id = some LeaveStatus.pending ∨
        statusOf db request_id = some LeaveStatus.approved) ∧
      statusOf db2 request_id = some LeaveStatus.cancelled ∧
      ∀ j, j ≠ request_id → statusOf db2 j = statusOf db j) ∧
    (findReq db request_id = none →
      errCode (approve_leave db request_id actor) = some "NOT_FOUND" ∧
      (∀ reason, errCode (reject_leave db request_id actor reason) = some "NOT_FOUND") ∧
      errCode (cancel_leave db request_id actor) = some "NOT_FOUND") ∧
    (∀ r, findReq db request_id = some r → r.status ≠ LeaveStatus.pending →
      errCode (approve_leave db request_id actor) = some "ALREADY_PROCESSED" ∧
      ∀ reason, errCode (reject_leave db request_id actor reason) =
        some "ALREADY_PROCESSED") ∧
    (∀ r, findReq db request_id = some r → r.user_id ≠ actor →
      errCode (cancel_leave db request_id actor) = some "FORBIDDEN") ∧
    (∀ r, findReq db request_id = some r → r.user_id = actor →
      (r.status = LeaveStatus.rejected ∨ r.status = LeaveStatus.cancelled) →
      errCode (cancel_leave db request_id actor) = some "INVALID_STATUS") := by
  refine ⟨?_, ?_, ?_, ?_, ?_, ?_, ?_⟩
  · intro db2 r2 h
    simp only [approve_leave] at h
    rcases hf : findReq db request_id with _ | r
    · simp only [hf] at h
      exact Except.noConfusion h
    · simp only [hf] at h
      by_cases hs : r.status ≠ LeaveStatus.pending
      · rw [if_pos hs] at h
        exact Except.noConfusion h
      · rw [if_neg hs] at h
        push_neg at hs
        injection h with hpair
        injection hpair with hdb hr2
        subst hdb
        subst hr2
        have hrid : r.id = request_id := by
          have := List.find?_some hf
          simpa using this
        have hsel := find?_updateReqList_self db.requests request_id
          (fun _ => { r with status := LeaveStatus.approved, approved_by := some actor })
          (fun x hx => hrid)
        have hoth := fun j hj => find?_updateReqList_other db.requests request_id
          (fun _ => { r with status := LeaveStatus.approved, approved_by := some actor })
          j hj (fun x hx => hrid)
        refine ⟨?_, ?_, ?_⟩
        · simp [statusOf, hf, hs]
        · simp only [statusOf, findReq, log_action_requests, deduct_balance_requests]
          rw [hsel]
          have hf2 : db.requests.find? (fun x => x.id == request_id) = some r := hf
          rw [hf2]
          rfl
        · intro j hj
          simp only [statusOf, findReq, log_action_requests, deduct_balance_requests]
          rw [hoth j hj]
  · intro reason db2 r2 h
    simp only [reject_leave] at h
    rcases hf : findReq db request_id with _ | r
    · simp only [hf] at h
      exact Except.noConfusion h
    · simp only [hf] at h
      by_cases hs : r.status ≠ LeaveStatus.pending
      · rw [if_pos hs] at h
        exact Except.noConfusion h
      · rw [if_neg hs] at h
        push_neg at hs
        injection h with hpair
        injection hpair with hdb hr2
        subst hdb
        subst hr2
        have hrid : r.id = request_id := by
          have := List.find?_some hf
          simpa using this
        have hsel := find?_updateReqList_self db.requests request_id
          (fun _ => { r with
            status := LeaveStatus.rejected, approved_by := some actor,
            rejection_reason := reason })
          (fun x hx => hrid)
        have hoth := fun j hj => find?_updateReqList_other db.requests request_id
          (fun _ => { r with
            status := LeaveStatus.rejected, approved_by := some actor,
            rejection_reason := reason })
          j hj (fun x hx => hrid)
        refine ⟨?_, ?_, ?_⟩
        · simp [statusOf, hf, hs]
        · simp only [statusOf, findReq, log_action_requests]
          rw [hsel]
          have hf2 : db.requests.find? (fun x => x.id == request_id) = some r := hf
          rw [hf2]
          rfl
        · intro j hj
          simp only [statusOf, findReq, log_action_requests]
          rw [hoth j hj]
  · intro db2 r2 h
    simp only [cancel_leave] at h
    rcases hf : findReq db request_id with _ | r
    · simp only [hf] at h
      exact Except.noConfusion h
    · simp only [hf] at h
      by_cases hu : r.user_id ≠ actor
      · rw [if_pos hu] at h
        exact Except.noConfusion h
      · rw [if_neg hu] at h
        push_neg at hu
        by_cases hs : r.status ≠ LeaveStatus.pending ∧ r.status ≠ LeaveStatus.approved
        · rw [if_pos hs] at h
          exact Except.noConfusion h
        · rw [if_neg hs] at h
          have hstat : r.status = LeaveStatus.pending ∨ r.status = LeaveStatus.approved := by
            rcases not_and_or.mp hs with h1 | h1
            · exact Or.inl (not_not.mp h1)
            · exact Or.inr (not_not.mp h1)
          injection h with hpair
          injection hpair with hdb hr2
          subst hdb
          subst hr2
          have hrid : r.id = request_id := by
            have := List.find?_some hf
            simpa using this
          have hsel := find?_updateReqList_self
            (if r.status = LeaveStatus.approved then
              (refund_balance db r.user_id r.leave_type r.days).1
            else db).requests request_id
            (fun _ => { r with status := LeaveStatus.cancelled })
            (fun x hx => hrid)
          have hoth := fun j hj => find?_updateReqList_other
            (if r.status = LeaveStatus.approved then
              (refund_balance db r.user_id r.leave_type r.days).1
            else db).requests request_id
            (fun _ => { r with status := LeaveStatus.cancelled })
            j hj (fun x hx => hrid)
          have hpres : (if r.status = LeaveStatus.approved then
              (refund_balance db r.user_id r.leave_type r.days).1
            else db).requests = db.requests := by
            by_cases hap : r.status = LeaveStatus.approved
            · rw [if_pos hap]
              exact refund_balance_requests db r.user_id r.leave_type r.days
            · rw [if_neg hap]
          refine ⟨?_, ?_, ?_, ?_⟩
          · simp [hf, hu]
          · rcases hstat with h1 | h1
            · exact Or.inl (by simp [statusOf, hf, h1])
            · exact Or.inr (by simp [statusOf, hf, h1])
          · simp only [statusOf, findReq, log_action_requests]
            rw [hsel, hpres]
            have hf2 : db.requests.find? (fun x => x.id == request_id) = some r := hf
            rw [hf2]
            rfl
          · intro j hj
            simp only [statusOf, findReq, log_action_requests]
            rw [hoth j hj, hpres]
  · intro h
    refine ⟨?_, ?_, ?_⟩
    · simp [approve_leave, h, errCode]
    · intro reason
      simp [reject_leave, h, errCode]
    · simp [cancel_leave, h, errCode]
  · intro r hf hs
    constructor
    · simp [approve_leave, hf, hs, errCode]
    · intro reason
      simp [reject_leave, hf, hs, errCode]
  · intro r hf hu
    simp [cancel_leave, hf, hu, errCode]
  · intro r hf hu hstat
    have h1 : ¬ r.user_id ≠ actor := fun hc => hc hu
    have h2 : r.status ≠ LeaveStatus.pending ∧ r.status ≠ LeaveStatus.approved := by
      rcases hstat with h3 | h3 <;> rw [h3] <;> exact ⟨by simp, by simp⟩
    simp [cancel_leave, hf, h1, h2, errCode]

/-- The pending request after approval by user 2. -/
def reqApproved : LeaveRequest :=
  { reqPending with status := LeaveStatus.approved, approved_by := some 2 }

/-- The pending request after rejection by user 2. -/
def reqRejected : LeaveRequest :=
  { reqPending with status := LeaveStatus.rejected, approved_by := some 2 }

/-- The pending request after cancellation by its owner. -/
def reqCancelled : LeaveRequest := { reqPending with status := LeaveStatus.cancelled }

/-- `dbLow` after a successful approve (debit silently failed). -/
def dbLowApproved : DB :=
  { requests := [reqApproved], balances := [balLow], holidays := [],
    audit := [{ leave_request_id := 1, action := "approved", actor_id := 2, details := none }],
    history := [] }

/-- `dbLow` after a successful reject. -/
def dbLowRejected : DB :=
  { requests := [reqRejected], balances := [balLow], holidays := [],
    audit := [{ leave_request_id := 1, action := "rejected", actor_id := 2, details := none }],
    history := [] }

/-- `dbLow` after a successful cancel of the pending request. -/
def dbLowCancelled : DB :=
  { requests := [reqCancelled], balances := [balLow], holidays := [],
    audit := [{ leave_request_id := 1, action := "cancelled", actor_id := 1, details := none }],
    history := [] }

/-- State whose only request is already cancelled (a terminal status). -/
def dbTerminal : DB :=
  { requests := [reqCancelled], balances := [balLow], holidays := [], audit := [], history := [] }

/-- Witness for C8: concrete approve / reject / cancel transitions and all
five failure modes, each obtained from the transition theorem. -/
theorem leave_status_transitions_witness :
    statusOf dbLow 1 = some LeaveStatus.pending ∧
    statusOf dbLowApproved 1 = some LeaveStatus.approved ∧
    statusOf dbLowApproved 7 = statusOf dbLow 7 ∧
    statusOf dbLowRejected 1 = some LeaveStatus.rejected ∧
    statusOf dbLowCancelled 1 = some LeaveStatus.cancelled ∧
    errCode (approve_leave dbLow 99 2) = some "NOT_FOUND" ∧
    errCode (cancel_leave dbLow 99 2) = some "NOT_FOUND" ∧
    errCode (approve_leave dbTerminal 1 2) = some "ALREADY_PROCESSED" ∧
    errCode (reject_leave dbTerminal 1 2 none) = some "ALREADY_PROCESSED" ∧
    errCode (cancel_leave dbLow 1 5) = some "FORBIDDEN" ∧
    errCode (cancel_leave dbTerminal 1 1) = some "INVALID_STATUS" := by
  have hA := (leave_status_transitions dbLow 1 2).1 dbLowApproved reqApproved (by decide)
  have hB := (leave_status_transitions dbLow 1 2).2.1 none dbLowRejected reqRejected (by decide)
  have hC := (leave_status_transitions dbLow 1 1).2.2.1 dbLowCancelled reqCancelled (by decide)
  have hD := (leave_status_transitions dbLow 99 2).2.2.2.1 (by decide)
  have hE := (leave_status_transitions dbTerminal 1 2).2.2.2.2.1 reqCancelled (by decide)
    (by decide)
  have hF := (leave_status_transitions dbLow 1 5).2.2.2.2.2.1 reqPending (by decide) (by decide)
  have hG := (leave_status_transitions dbTerminal 1 1).2.2.2.2.2.2 reqCancelled (by decide)
    (by decide) (Or.inr (by decide))
  exact ⟨hA.1, hA.2.1, hA.2.2 7 (by decide), hB.2.1, hC.2.2.1, hD.1, hD.2.2, hE.1,
    hE.2 none, hF, hG⟩

end LeaveFlow
